import Mathlib

/-!
Shallow embedding of the ticket-generator core (src/main.rs): alphabet
construction (build_character_set), uniqueness-checked token generation
(gen_token), CSV emission (build_csv), and the run-submission guard
(start_processing).

Modelling choices:
- Rust strings are List Char; the random source is an infinite stream of
  naturals, and one call of choose on a non-empty slice indexes it by the
  next stream value reduced modulo the slice length.
- The file system is an oracle Fs giving the outcome of File::create and of
  the i-th write_record call (some err = failure with OS error text err).
- The unbounded duplicate-avoidance recursion of gen_token receives explicit
  fuel counting attempts; a result of none models non-termination.
- The HashSet of already generated tokens is a duplicate-free list with the
  same membership; the CSV file content is the list of records written so
  far, one token per row, in writing order, with no header row.
-/

namespace TicketGen

/-- The capitals class constant (named CAPTIALS in the source).  Its literal
reads ...UVQXYZ: position 22 holds a second Q where W would be expected. -/
def CAPTIALS : List Char := "ABCDEFGHIJKLMNOPQRSTUVQXYZ".data

/-- The lowercase class constant.  Its literal reads ...uvqxyz: a second q
where w would be expected. -/
def LOWERS : List Char := "abcdefghijklmnopqrstuvqxyz".data

/-- The digits class constant. -/
def NUMBERS : List Char := "0123456789".data

/-- The specials class constant: comma, period, semicolon, colon, double
quote (34), single quote (39), exclamation mark, percent sign, hash. -/
def SPECIALS : List Char :=
  [',', '.', ';', ':', Char.ofNat 34, Char.ofNat 39, '!', '%', '#']

/-- The form state of RandomizerApp that start_processing and
build_character_set read (GUI-only fields omitted). -/
structure RandomizerApp where
  capital_letters : Bool
  lowercase_letters : Bool
  numbers : Bool
  specials : Bool
  rejected_chars : List Char
  ticket_count : Nat
  ticket_length : Nat
  file_path : Option String
  is_processing : Bool

/-- buf.replace with a char-slice pattern and an empty replacement: a slice
of chars matches any single character contained in it, so the call removes
every occurrence of every rejected character and keeps the rest in order. -/
def replace_chars (buf rejected : List Char) : List Char :=
  buf.filter (fun c => decide (c ∉ rejected))

/-- build_character_set: push the selected class strings in the fixed order
capitals, lowercase, digits, specials, then strip the rejected characters. -/
def build_character_set (app : RandomizerApp) : List Char :=
  let buf : List Char := []
  let buf := if app.capital_letters then buf ++ CAPTIALS else buf
  let buf := if app.lowercase_letters then buf ++ LOWERS else buf
  let buf := if app.numbers then buf ++ NUMBERS else buf
  let buf := if app.specials then buf ++ SPECIALS else buf
  replace_chars buf app.rejected_chars

/-- The alphabet as the specification words it: the selected class strings
concatenated in the fixed order capitals, lowercase, digits, specials, then
filtered by literal character membership in the exclusion string. -/
def spec_character_set (caps lows nums specs : Bool) (exclusion : List Char) :
    List Char :=
  ((if caps then CAPTIALS else []) ++ (if lows then LOWERS else []) ++
      (if nums then NUMBERS else []) ++
      (if specs then SPECIALS else [])).filter
    (fun c => decide (c ∉ exclusion))

/-- What start_processing does besides updating the state: either nothing,
or spawning the worker thread with the captured arguments. -/
inductive StartAction where
  | noop : StartAction
  | spawn (character_set : List Char) (file_path : String)
      (token_count token_length : Nat) : StartAction

/-- start_processing: refuse (returning unchanged state and doing nothing)
when a run is active, the file path is missing, the built character set is
empty, or the length or count is zero; otherwise set is_processing and
spawn the worker. -/
def start_processing (app : RandomizerApp) : RandomizerApp × StartAction :=
  if app.is_processing then (app, StartAction.noop)
  else
    match app.file_path with
    | none => (app, StartAction.noop)
    | some fp =>
      let character_set := build_character_set app
      if character_set = [] then (app, StartAction.noop)
      else if app.ticket_length = 0 ∨ app.ticket_count = 0 then
        (app, StartAction.noop)
      else
        ({ app with is_processing := true },
          StartAction.spawn character_set fp app.ticket_count
            app.ticket_length)

/-- One call of character_set.choose(rng).unwrap() on a non-empty slice:
the next stream value, reduced modulo the slice length, indexes the slice. -/
def chooseChar (cs : List Char) (stream : Nat → Nat) (pos : Nat) : Char :=
  cs.getD (stream pos % cs.length) 'A'

/-- String::write_char (the fmt::Write instance of String): it appends the
character and always succeeds, on the result type the caller sees. -/
def write_char (buf : List Char) (c : Char) : Except String (List Char) :=
  Except.ok (buf ++ [c])

/-- The character-drawing loop of gen_token: n successive draws pushed onto
buf through write_char, a failure mapped to the fixed message. -/
def build_buf (cs : List Char) (stream : Nat → Nat) :
    Nat → Nat → List Char → Except String (List Char)
  | _, 0, buf => Except.ok buf
  | pos, n + 1, buf =>
    match write_char buf (chooseChar cs stream pos) with
    | Except.error _ => Except.error "Failed to write to string"
    | Except.ok buf2 => build_buf cs stream (pos + 1) n buf2

/-- The pure value of the drawing loop: the n characters drawn at stream
positions pos, pos + 1, ... -/
def draw (cs : List Char) (stream : Nat → Nat) : Nat → Nat → List Char
  | _, 0 => []
  | pos, n + 1 => chooseChar cs stream pos :: draw cs stream (pos + 1) n

/-- gen_token: draw token_length characters; if the resulting string is
already in already_generated, retry the whole draw.  fuel bounds the number
of attempts in the embedding and none models non-termination of the
unbounded recursion; a successful result carries the token and the next
unconsumed stream position. -/
def gen_token (cs : List Char) (already_generated : List (List Char))
    (token_length : Nat) (stream : Nat → Nat) :
    Nat → Nat → Option (Except String (List Char × Nat))
  | _, 0 => none
  | pos, fuel + 1 =>
    match build_buf cs stream pos token_length [] with
    | Except.error e => some (Except.error e)
    | Except.ok buf =>
      if buf ∈ already_generated then
        gen_token cs already_generated token_length stream
          (pos + token_length) fuel
      else some (Except.ok (buf, pos + token_length))

/-- File-system oracle: the outcome of File::create and of the i-th
write_record call; some err means failure with underlying error text err. -/
structure Fs where
  createResult : Option String
  writeResult : Nat → Option String

/-- The writing loop of build_csv: for each remaining token, generate a
fresh token, write it as one record, then insert it into the duplicate set.
Returns the rows actually written together with the run outcome; none
models a run that never terminates. -/
def build_csv_loop (fs : Fs) (cs : List Char) (stream : Nat → Nat)
    (token_length fuel : Nat) :
    Nat → Nat → List (List Char) → List (List Char) →
      Option (List (List Char) × Except String Unit)
  | 0, _, _, rows => some (rows, Except.ok ())
  | remaining + 1, pos, set, rows =>
    match gen_token cs set token_length stream pos fuel with
    | none => none
    | some (Except.error e) => some (rows, Except.error e)
    | some (Except.ok (tok, pos2)) =>
      match fs.writeResult rows.length with
      | some err =>
        some (rows, Except.error ("Failed to write to file: " ++ err))
      | none =>
        build_csv_loop fs cs stream token_length fuel remaining pos2
          (set ++ [tok]) (rows ++ [tok])

/-- build_csv: create the file (a failure is reported with the path and the
underlying error text), then run the writing loop from an empty duplicate
set and an empty file. -/
def build_csv (fs : Fs) (character_set : List Char) (file_path : String)
    (token_count token_length : Nat) (stream : Nat → Nat) (fuel : Nat) :
    Option (List (List Char) × Except String Unit) :=
  match fs.createResult with
  | some err =>
    some ([], Except.error ("Failed to create file " ++ file_path ++ ": " ++
      err))
  | none =>
    build_csv_loop fs character_set stream token_length fuel token_count 0
      [] []

/-- A string the generator can possibly produce: length token_length, every
character a member of the alphabet. -/
def validTok (cs : List Char) (token_length : Nat) (t : List Char) : Prop :=
  t.length = token_length ∧ ∀ c ∈ t, c ∈ cs

/-- A random stream that spells out the string t: position i yields the
index of the i-th character of t in cs. -/
def tokStream (cs t : List Char) : Nat → Nat :=
  fun i => cs.indexOf (t.getD i 'A')

/-- A fully healthy file system: creation and every write succeed. -/
def fsOk : Fs := ⟨none, fun _ => none⟩

/-- The drawing loop never fails: write_char always succeeds, so the buffer
is exactly the sequence of drawn characters. -/
theorem build_buf_ok (cs : List Char) (stream : Nat → Nat) :
    ∀ (n pos : Nat) (buf : List Char),
      build_buf cs stream pos n buf =
        Except.ok (buf ++ draw cs stream pos n) := by
  intro n
  induction n with
  | zero => intro pos buf; simp [build_buf, draw]
  | succ n ih =>
    intro pos buf
    simp [build_buf, draw, write_char, ih]

/-- One attempt draws exactly n characters. -/
theorem draw_length (cs : List Char) (stream : Nat → Nat) :
    ∀ (n pos : Nat), (draw cs stream pos n).length = n := by
  intro n
  induction n with
  | zero => intro pos; simp [draw]
  | succ n ih => intro pos; simp [draw, ih]

/-- On a non-empty slice, choose returns one of its elements. -/
theorem chooseChar_mem (cs : List Char) (hcs : cs ≠ []) (stream : Nat → Nat)
    (pos : Nat) : chooseChar cs stream pos ∈ cs := by
  have hlen : 0 < cs.length := List.length_pos.mpr hcs
  have hlt : stream pos % cs.length < cs.length := Nat.mod_lt _ hlen
  rw [chooseChar, List.getD_eq_getElem cs 'A' hlt]
  exact List.getElem_mem hlt

/-- Every drawn character belongs to the (non-empty) alphabet. -/
theorem draw_mem (cs : List Char) (hcs : cs ≠ []) (stream : Nat → Nat) :
    ∀ (n pos : Nat), ∀ c ∈ draw cs stream pos n, c ∈ cs := by
  intro n
  induction n with
  | zero => intro pos c hc; simp [draw] at hc
  | succ n ih =>
    intro pos c hc
    simp only [draw, List.mem_cons] at hc
    rcases hc with hc | hc
    · exact hc ▸ chooseChar_mem cs hcs stream pos
    · exact ih (pos + 1) c hc

/-- Unfolding one attempt of gen_token: build the draw, retry it whole when
the result is already in the set, return it otherwise. -/
theorem gen_token_succ (cs : List Char) (already : List (List Char))
    (len : Nat) (stream : Nat → Nat) (pos fuel : Nat) :
    gen_token cs already len stream pos (fuel + 1) =
      if draw cs stream pos len ∈ already then
        gen_token cs already len stream (pos + len) fuel
      else some (Except.ok (draw cs stream pos len, pos + len)) := by
  simp [gen_token, build_buf_ok]

/-- Out of fuel, gen_token reports non-termination. -/
theorem gen_token_zero (cs : List Char) (already : List (List Char))
    (len : Nat) (stream : Nat → Nat) (pos : Nat) :
    gen_token cs already len stream pos 0 = none := by
  simp [gen_token]

/-- gen_token never surfaces an error: its only error branch would need
write_char to fail, which cannot happen. -/
theorem gen_token_not_error (cs : List Char) (already : List (List Char))
    (len : Nat) (stream : Nat → Nat) :
    ∀ (fuel pos : Nat) (e : String),
      gen_token cs already len stream pos fuel ≠ some (Except.error e) := by
  intro fuel
  induction fuel with
  | zero => intro pos e h; simp [gen_token] at h
  | succ fuel ih =>
    intro pos e h
    rw [gen_token_succ] at h
    by_cases hmem : draw cs stream pos len ∈ already
    · rw [if_pos hmem] at h
      exact ih (pos + len) e h
    · rw [if_neg hmem] at h
      simp at h

/-- A token gen_token returns is fresh, and over a non-empty alphabet it has
the requested length with every character in the alphabet. -/
theorem gen_token_ok_spec (cs : List Char) (already : List (List Char))
    (len : Nat) (stream : Nat → Nat) :
    ∀ (fuel pos : Nat) (tok : List Char) (p2 : Nat),
      gen_token cs already len stream pos fuel =
        some (Except.ok (tok, p2)) →
      tok ∉ already ∧ (cs ≠ [] → validTok cs len tok) := by
  intro fuel
  induction fuel with
  | zero => intro pos tok p2 h; simp [gen_token] at h
  | succ fuel ih =>
    intro pos tok p2 h
    rw [gen_token_succ] at h
    by_cases hmem : draw cs stream pos len ∈ already
    · rw [if_pos hmem] at h
      exact ih (pos + len) tok p2 h
    · rw [if_neg hmem] at h
      simp only [Option.some.injEq, Except.ok.injEq, Prod.mk.injEq] at h
      obtain ⟨htok, -⟩ := h
      subst htok
      exact ⟨hmem, fun hcs =>
        ⟨draw_length cs stream len pos, draw_mem cs hcs stream len pos⟩⟩

/-- When the set already holds every producible string, every attempt is
rejected and gen_token never terminates. -/
theorem gen_token_none_of_saturated (cs : List Char) (hcs : cs ≠ [])
    (already : List (List Char)) (len : Nat)
    (hsat : ∀ t, validTok cs len t → t ∈ already) (stream : Nat → Nat) :
    ∀ (fuel pos : Nat),
      gen_token cs already len stream pos fuel = none := by
  intro fuel
  induction fuel with
  | zero => intro pos; simp [gen_token]
  | succ fuel ih =>
    intro pos
    rw [gen_token_succ]
    have hmem : draw cs stream pos len ∈ already :=
      hsat _ ⟨draw_length cs stream len pos, draw_mem cs hcs stream len pos⟩
    rw [if_pos hmem]
    exact ih (pos + len)

/-- Against the stream that spells t, the drawing loop reproduces any
segment of t whose characters all lie in the alphabet. -/
theorem draw_tokStream (cs t : List Char) :
    ∀ (v : List Char) (pos : Nat), (∀ c ∈ v, c ∈ cs) →
      (∀ i, i < v.length → t.getD (pos + i) 'A' = v.getD i 'A') →
      draw cs (tokStream cs t) pos v.length = v := by
  intro v
  induction v with
  | nil => intro pos _ _; simp [draw]
  | cons c v2 ih =>
    intro pos hmem hpt
    have hc : c ∈ cs := hmem c (List.mem_cons_self c v2)
    have hidx : List.indexOf c cs < cs.length :=
      List.indexOf_lt_length.mpr hc
    have h0 : t.getD (pos + 0) 'A' = c := by
      have := hpt 0 (Nat.succ_pos v2.length)
      simpa using this
    have hhead : chooseChar cs (tokStream cs t) pos = c := by
      rw [chooseChar, tokStream]
      simp only [Nat.add_zero] at h0
      rw [h0, Nat.mod_eq_of_lt hidx, List.getD_eq_getElem cs 'A' hidx]
      exact List.getElem_indexOf hidx
    have htail : draw cs (tokStream cs t) (pos + 1) v2.length = v2 := by
      refine ih (pos + 1) (fun d hd => hmem d (List.mem_cons_of_mem c hd))
        (fun i hi => ?_)
      have := hpt (i + 1) (Nat.succ_lt_succ hi)
      have harith : pos + (i + 1) = pos + 1 + i := by omega
      rw [harith] at this
      simpa using this
    simp only [List.length_cons, draw, hhead, htail]

/-- Any fresh producible token is reached in one attempt by the stream that
spells it out. -/
theorem gen_token_exists_of_fresh (cs : List Char)
    (already : List (List Char)) (len : Nat) (t : List Char)
    (hv : validTok cs len t) (hfresh : t ∉ already) :
    gen_token cs already len (tokStream cs t) 0 1 =
      some (Except.ok (t, len)) := by
  have hd : draw cs (tokStream cs t) 0 len = t := by
    have := draw_tokStream cs t t 0 hv.2 (fun i _ => by simp)
    rwa [hv.1] at this
  rw [gen_token_succ, hd, if_neg hfresh]
  simp

/-- A duplicate-free list of producible tokens is no longer than the token
space: tokens of length len over an alphabet with m distinct characters
embed into the functions from Fin len to Fin m. -/
theorem length_le_pow_of_nodup_valid (cs : List Char) (len : Nat)
    (L : List (List Char)) (hnd : L.Nodup)
    (hv : ∀ t ∈ L, validTok cs len t) :
    L.length ≤ cs.dedup.length ^ len := by
  rcases Nat.eq_zero_or_pos cs.dedup.length with hm | hm
  · have hcs : cs = [] := (List.dedup_eq_nil cs).mp (List.length_eq_zero.mp hm)
    subst hcs
    cases len with
    | zero =>
      have hall : ∀ t ∈ L, t = ([] : List Char) := by
        intro t ht
        exact List.length_eq_zero.mp (hv t ht).1
      match L, hnd, hall with
      | [], _, _ => simp
      | [t], _, _ => simp
      | t1 :: t2 :: rest, hnd, hall =>
        exfalso
        have h1 : t1 = [] := hall t1 (by simp)
        have h2 : t2 = [] := hall t2 (by simp)
        have : t1 ∉ t2 :: rest := (List.nodup_cons.mp hnd).1
        exact this (by rw [h1, h2]; exact List.mem_cons_self [] rest)
    | succ n =>
      match L, hv with
      | [], _ => simp
      | t :: rest, hv =>
        exfalso
        obtain ⟨hlen, hmem⟩ := hv t (by simp)
        match t, hlen with
        | c :: t2, _ => exact absurd (hmem c (by simp)) (by simp)
  · set m := cs.dedup.length with hmdef
    let f : List Char → (Fin len → Fin m) := fun t i =>
      ⟨List.indexOf (t.getD i 'A') cs.dedup % m, Nat.mod_lt _ hm⟩
    have hidx : ∀ t, validTok cs len t → ∀ i : Nat, i < len →
        List.indexOf (t.getD i 'A') cs.dedup < m := by
      intro t ht i hilt
      have hi : i < t.length := by rw [ht.1]; exact hilt
      have : t.getD i 'A' ∈ cs := by
        rw [List.getD_eq_getElem t 'A' hi]
        exact ht.2 _ (List.getElem_mem hi)
      exact List.indexOf_lt_length.mpr (List.mem_dedup.mpr this)
    have hinj : ∀ x ∈ L, ∀ y ∈ L, f x = f y → x = y := by
      intro x hx y hy hfeq
      have hvx := hv x hx
      have hvy := hv y hy
      refine List.ext_getElem (by rw [hvx.1, hvy.1]) ?_
      intro n h1 h2
      have hn : n < len := by rw [hvx.1] at h1; exact h1
      have hfn : List.indexOf (x.getD n 'A') cs.dedup % m =
          List.indexOf (y.getD n 'A') cs.dedup % m :=
        congrArg Fin.val (congrFun hfeq ⟨n, hn⟩)
      have hx' := hidx x hvx n hn
      have hy' := hidx y hvy n hn
      have heqidx : List.indexOf (x.getD n 'A') cs.dedup =
          List.indexOf (y.getD n 'A') cs.dedup := by
        rwa [Nat.mod_eq_of_lt hx', Nat.mod_eq_of_lt hy'] at hfn
      have hgx : cs.dedup[List.indexOf (x.getD n 'A') cs.dedup] = x.getD n 'A' :=
        List.getElem_indexOf hx'
      have hgy : cs.dedup[List.indexOf (y.getD n 'A') cs.dedup] = y.getD n 'A' :=
        List.getElem_indexOf hy'
      have hxy : x.getD n 'A' = y.getD n 'A' := by
        rw [← hgx, ← hgy]
        congr 1
      rw [List.getD_eq_getElem x 'A' h1, List.getD_eq_getElem y 'A' h2] at hxy
      exact hxy
    have hmapnd : (L.map f).Nodup := hnd.map_on hinj
    have hcard := hmapnd.length_le_card
    simpa [Fintype.card_fun] using hcard

/-- A successful writing loop writes exactly one row per remaining token. -/
theorem build_csv_loop_ok_length (fs : Fs) (cs : List Char)
    (stream : Nat → Nat) (len fuel : Nat) :
    ∀ (remaining pos : Nat) (set rows rows2 : List (List Char)),
      build_csv_loop fs cs stream len fuel remaining pos set rows =
        some (rows2, Except.ok ()) →
      rows2.length = rows.length + remaining := by
  intro remaining
  induction remaining with
  | zero =>
    intro pos set rows rows2 h
    simp only [build_csv_loop, Option.some.injEq, Prod.mk.injEq] at h
    rw [← h.1]
    simp
  | succ remaining ih =>
    intro pos set rows rows2 h
    simp only [build_csv_loop] at h
    cases h1 : gen_token cs set len stream pos fuel with
    | none => rw [h1] at h; simp at h
    | some r =>
      rw [h1] at h
      cases r with
      | error e => simp at h
      | ok p =>
        obtain ⟨tok, pos2⟩ := p
        cases h2 : fs.writeResult rows.length with
        | some err => rw [h2] at h; simp at h
        | none =>
          rw [h2] at h
          have := ih pos2 (set ++ [tok]) (rows ++ [tok]) rows2 h
          simp only [List.length_append, List.length_cons,
            List.length_nil] at this
          omega

/-- When the duplicate set and the file rows coincide, they stay equal and
the rows stay duplicate-free: each accepted token is fresh. -/
theorem build_csv_loop_rows_nodup (fs : Fs) (cs : List Char)
    (stream : Nat → Nat) (len fuel : Nat) :
    ∀ (remaining pos : Nat) (rows rows2 : List (List Char))
      (st : Except String Unit),
      build_csv_loop fs cs stream len fuel remaining pos rows rows =
        some (rows2, st) →
      rows.Nodup → rows2.Nodup := by
  intro remaining
  induction remaining with
  | zero =>
    intro pos rows rows2 st h hnd
    simp only [build_csv_loop, Option.some.injEq, Prod.mk.injEq] at h
    rw [← h.1]; exact hnd
  | succ remaining ih =>
    intro pos rows rows2 st h hnd
    simp only [build_csv_loop] at h
    cases h1 : gen_token cs rows len stream pos fuel with
    | none => rw [h1] at h; simp at h
    | some r =>
      rw [h1] at h
      cases r with
      | error e =>
        simp only [Option.some.injEq, Prod.mk.injEq] at h
        rw [← h.1]; exact hnd
      | ok p =>
        obtain ⟨tok, pos2⟩ := p
        have hfresh : tok ∉ rows :=
          (gen_token_ok_spec cs rows len stream fuel pos tok pos2 h1).1
        cases h2 : fs.writeResult rows.length with
        | some err =>
          rw [h2] at h
          simp only [Option.some.injEq, Prod.mk.injEq] at h
          rw [← h.1]; exact hnd
        | none =>
          rw [h2] at h
          refine ih pos2 (rows ++ [tok]) rows2 st h ?_
          simp [List.nodup_append, hnd, hfresh]

/-- Over a non-empty alphabet every row the loop adds is a producible
token. -/
theorem build_csv_loop_rows_valid (fs : Fs) (cs : List Char) (hcs : cs ≠ [])
    (stream : Nat → Nat) (len fuel : Nat) :
    ∀ (remaining pos : Nat) (set rows rows2 : List (List Char))
      (st : Except String Unit),
      build_csv_loop fs cs stream len fuel remaining pos set rows =
        some (rows2, st) →
      (∀ t ∈ rows, validTok cs len t) → ∀ t ∈ rows2, validTok cs len t := by
  intro remaining
  induction remaining with
  | zero =>
    intro pos set rows rows2 st h hval
    simp only [build_csv_loop, Option.some.injEq, Prod.mk.injEq] at h
    rw [← h.1]; exact hval
  | succ remaining ih =>
    intro pos set rows rows2 st h hval
    simp only [build_csv_loop] at h
    cases h1 : gen_token cs set len stream pos fuel with
    | none => rw [h1] at h; simp at h
    | some r =>
      rw [h1] at h
      cases r with
      | error e =>
        simp only [Option.some.injEq, Prod.mk.injEq] at h
        rw [← h.1]; exact hval
      | ok p =>
        obtain ⟨tok, pos2⟩ := p
        have hvt : validTok cs len tok :=
          (gen_token_ok_spec cs set len stream fuel pos tok pos2 h1).2 hcs
        cases h2 : fs.writeResult rows.length with
        | some err =>
          rw [h2] at h
          simp only [Option.some.injEq, Prod.mk.injEq] at h
          rw [← h.1]; exact hval
        | none =>
          rw [h2] at h
          refine ih pos2 (set ++ [tok]) (rows ++ [tok]) rows2 st h ?_
          intro t ht
          rcases List.mem_append.mp ht with ht | ht
          · exact hval t ht
          · rw [List.mem_singleton.mp ht]; exact hvt

/-- Any error the writing loop surfaces comes from the first failing record
write: the rows written are exactly the successful writes before it, the
message carries the underlying error text, and the loop still had tokens to
emit. -/
theorem build_csv_loop_error_spec (fs : Fs) (cs : List Char)
    (stream : Nat → Nat) (len fuel : Nat) :
    ∀ (remaining pos : Nat) (set rows rows2 : List (List Char)) (e : String),
      build_csv_loop fs cs stream len fuel remaining pos set rows =
        some (rows2, Except.error e) →
      (∀ i, i < rows.length → fs.writeResult i = none) →
      ∃ err, fs.writeResult rows2.length = some err ∧
        e = "Failed to write to file: " ++ err ∧
        (∀ i, i < rows2.length → fs.writeResult i = none) ∧
        rows2.length < rows.length + remaining := by
  intro remaining
  induction remaining with
  | zero =>
    intro pos set rows rows2 e h hw
    simp [build_csv_loop] at h
  | succ remaining ih =>
    intro pos set rows rows2 e h hw
    simp only [build_csv_loop] at h
    cases h1 : gen_token cs set len stream pos fuel with
    | none => rw [h1] at h; simp at h
    | some r =>
      rw [h1] at h
      cases r with
      | error e2 => exact absurd h1 (gen_token_not_error cs set len stream fuel pos e2)
      | ok p =>
        obtain ⟨tok, pos2⟩ := p
        cases h2 : fs.writeResult rows.length with
        | some err =>
          rw [h2] at h
          simp only [Option.some.injEq, Prod.mk.injEq,
            Except.error.injEq] at h
          obtain ⟨hrows, he⟩ := h
          subst hrows
          exact ⟨err, h2, he.symm, hw, by omega⟩
        | none =>
          rw [h2] at h
          have hw2 : ∀ i, i < (rows ++ [tok]).length → fs.writeResult i = none := by
            intro i hi
            simp only [List.length_append, List.length_cons,
              List.length_nil] at hi
            rcases Nat.lt_or_ge i rows.length with hlt | hge
            · exact hw i hlt
            · have : i = rows.length := by omega
              rw [this]; exact h2
          obtain ⟨err, ha, hb, hc, hd⟩ :=
            ih pos2 (set ++ [tok]) (rows ++ [tok]) rows2 e h hw2
          refine ⟨err, ha, hb, hc, ?_⟩
          simp only [List.length_append, List.length_cons,
            List.length_nil] at hd
          omega

/-- When the token space is smaller than the number of tokens still owed and
the file system never fails, the writing loop cannot finish: the duplicate
set saturates and gen_token rejects every further draw. -/
theorem build_csv_loop_none_of_small_space (fs : Fs) (cs : List Char)
    (hcs : cs ≠ []) (stream : Nat → Nat) (len fuel : Nat)
    (hw : ∀ i, fs.writeResult i = none) :
    ∀ (remaining pos : Nat) (set rows : List (List Char)),
      set.Nodup → (∀ t ∈ set, validTok cs len t) →
      cs.dedup.length ^ len < set.length + remaining →
      build_csv_loop fs cs stream len fuel remaining pos set rows = none := by
  intro remaining
  induction remaining with
  | zero =>
    intro pos set rows hnd hval hlt
    exfalso
    have := length_le_pow_of_nodup_valid cs len set hnd hval
    omega
  | succ remaining ih =>
    intro pos set rows hnd hval hlt
    simp only [build_csv_loop]
    cases h1 : gen_token cs set len stream pos fuel with
    | none => rfl
    | some r =>
      cases r with
      | error e => exact absurd h1 (gen_token_not_error cs set len stream fuel pos e)
      | ok p =>
        obtain ⟨tok, pos2⟩ := p
        have hspec := gen_token_ok_spec cs set len stream fuel pos tok pos2 h1
        rw [hw rows.length]
        refine ih pos2 (set ++ [tok]) (rows ++ [tok]) ?_ ?_ ?_
        · simp [List.nodup_append, hnd, hspec.1]
        · intro t ht
          rcases List.mem_append.mp ht with ht | ht
          · exact hval t ht
          · rw [List.mem_singleton.mp ht]; exact hspec.2 hcs
        · simp only [List.length_append, List.length_cons, List.length_nil]
          omega

/-- Whatever the form state, every character of the built alphabet comes
from one of the four class constants. -/
theorem build_character_set_subset (app : RandomizerApp) :
    ∀ c ∈ build_character_set app,
      c ∈ CAPTIALS ++ LOWERS ++ NUMBERS ++ SPECIALS := by
  intro c hc
  simp only [build_character_set, replace_chars, List.mem_filter] at hc
  obtain ⟨hc1, -⟩ := hc
  simp only [List.mem_append]
  split_ifs at hc1 <;>
    simp only [List.append_nil, List.nil_append, List.mem_append,
      List.not_mem_nil] at hc1 <;> tauto

/-- C1: in any single generation run that completes, no two emitted tokens
are identical: gen_token returns a string not present in the set of already
generated tokens, and build_csv inserts every written token into the set
before the next draw, so the rows of the output file are pairwise
distinct. -/
theorem c1_rows_pairwise_distinct (cs : List Char) (fp : String)
    (count len fuel : Nat) (stream : Nat → Nat) (fs : Fs) :
    (∀ (already : List (List Char)) (pos f2 p2 : Nat) (tok : List Char),
      gen_token cs already len stream pos f2 = some (Except.ok (tok, p2)) →
      tok ∉ already) ∧
    (∀ (rows : List (List Char)) (st : Except String Unit),
      build_csv fs cs fp count len stream fuel = some (rows, st) →
      rows.Nodup) := by
  constructor
  · intro already pos f2 p2 tok h
    exact (gen_token_ok_spec cs already len stream f2 pos tok p2 h).1
  · intro rows st h
    simp only [build_csv] at h
    cases hcr : fs.createResult with
    | some err =>
      rw [hcr] at h
      simp only [Option.some.injEq, Prod.mk.injEq] at h
      rw [← h.1]
      exact List.nodup_nil
    | none =>
      rw [hcr] at h
      exact build_csv_loop_rows_nodup fs cs stream len fuel count 0 [] rows
        st h List.nodup_nil

/-- C1 witness: a concrete two-token run produces duplicate-free rows. -/
theorem c1_witness : ([['a'], ['b']] : List (List Char)).Nodup :=
  (c1_rows_pairwise_distinct ['a', 'b'] "out.csv" 2 1 2 (fun n => n)
      fsOk).2 [['a'], ['b']] (Except.ok ()) rfl

/-- C2: whenever build_csv returns Ok, the output file holds exactly
token_count rows; in the embedding the file content is by construction the
written tokens, one per row, in generation order, with no header row. -/
theorem c2_success_row_count (fs : Fs) (cs : List Char) (fp : String)
    (count len fuel : Nat) (stream : Nat → Nat) (rows : List (List Char))
    (h : build_csv fs cs fp count len stream fuel =
      some (rows, Except.ok ())) :
    rows.length = count := by
  simp only [build_csv] at h
  cases hcr : fs.createResult with
  | some err => rw [hcr] at h; simp at h
  | none =>
    rw [hcr] at h
    simpa using
      build_csv_loop_ok_length fs cs stream len fuel count 0 [] [] rows h

/-- C2 witness: a concrete successful run with token_count two writes two
rows. -/
theorem c2_witness : ([['a'], ['b']] : List (List Char)).length = 2 :=
  c2_success_row_count fsOk ['a', 'b'] "out.csv" 2 1 2 (fun n => n)
    [['a'], ['b']] rfl

/-- C3: every token gen_token returns over a non-empty alphabet is a string
of exactly token_length characters, each a member of the alphabet. -/
theorem c3_token_length_and_membership (cs : List Char) (hcs : cs ≠ [])
    (already : List (List Char)) (len : Nat) (stream : Nat → Nat)
    (pos fuel p2 : Nat) (tok : List Char)
    (h : gen_token cs already len stream pos fuel =
      some (Except.ok (tok, p2))) :
    tok.length = len ∧ ∀ c ∈ tok, c ∈ cs :=
  (gen_token_ok_spec cs already len stream fuel pos tok p2 h).2 hcs

/-- C3 witness: a concrete draw yields a one-character token over the
two-character alphabet. -/
theorem c3_witness :
    (['b'] : List Char).length = 1 ∧ 'b' ∈ (['a', 'b'] : List Char) :=
  ⟨(c3_token_length_and_membership ['a', 'b'] (by decide) [['a']] 1
      (fun _ => 1) 0 1 1 ['b'] rfl).1,
    (c3_token_length_and_membership ['a', 'b'] (by decide) [['a']] 1
      (fun _ => 1) 0 1 1 ['b'] rfl).2 'b' (by decide)⟩

/-- C4: build_character_set is the concatenation of the selected class
strings in the fixed order capitals, lowercase, digits, specials with every
occurrence of every excluded character removed (literal membership filter,
order preserved), and it is empty when no class is selected or when the
exclusion covers every selected character. -/
theorem c4_concat_then_filter (app : RandomizerApp) :
    build_character_set app =
      spec_character_set app.capital_letters app.lowercase_letters
        app.numbers app.specials app.rejected_chars ∧
    (app.capital_letters = false → app.lowercase_letters = false →
      app.numbers = false → app.specials = false →
      build_character_set app = []) ∧
    ((∀ c ∈ (if app.capital_letters then CAPTIALS else []) ++
          (if app.lowercase_letters then LOWERS else []) ++
          (if app.numbers then NUMBERS else []) ++
          (if app.specials then SPECIALS else []),
        c ∈ app.rejected_chars) →
      build_character_set app = []) := by
  have hmain : build_character_set app =
      spec_character_set app.capital_letters app.lowercase_letters
        app.numbers app.specials app.rejected_chars := by
    simp only [build_character_set, spec_character_set, replace_chars]
    split_ifs <;> simp
  refine ⟨hmain, ?_, ?_⟩
  · intro h1 h2 h3 h4
    rw [hmain]
    simp [spec_character_set, h1, h2, h3, h4]
  · intro hall
    rw [hmain]
    unfold spec_character_set
    apply List.filter_eq_nil_iff.mpr
    intro a ha
    simpa using hall a ha

/-- C4 witness: with no class selected the alphabet is empty, and excluding
all capitals empties a capitals-only alphabet. -/
theorem c4_witness :
    build_character_set ⟨false, false, false, false, [], 0, 0, none, false⟩ =
      [] ∧
    build_character_set
        ⟨true, false, false, false, "ABCDEFGHIJKLMNOPQRSTUVQXYZ".data, 0, 0,
          none, false⟩ = [] :=
  ⟨(c4_concat_then_filter
      ⟨false, false, false, false, [], 0, 0, none, false⟩).2.1 rfl rfl rfl
      rfl,
    (c4_concat_then_filter
      ⟨true, false, false, false, "ABCDEFGHIJKLMNOPQRSTUVQXYZ".data, 0, 0,
        none, false⟩).2.2 (by decide)⟩

/-- C5: refuted by the code as written: with capitals selected and nothing
excluded the alphabet holds the character Q at two positions, because the
CAPTIALS literal repeats Q in place of W while the checkbox label
advertises the class A to Z; so the alphabet is not a sequence of distinct
characters. -/
theorem c5_capitals_alphabet_repeats_q :
    (build_character_set
        ⟨true, false, false, false, [], 0, 0, none, false⟩).count 'Q' = 2 ∧
    ¬ (build_character_set
        ⟨true, false, false, false, [], 0, 0, none, false⟩).Nodup := by
  decide

/-- C7: a request with a missing file path, an empty built alphabet, zero
ticket_length, or zero ticket_count makes start_processing a silent no-op:
the state comes back unchanged (is_processing included) and no worker is
spawned, so nothing is written and no message is surfaced. -/
theorem c7_invalid_request_silent_noop (app : RandomizerApp)
    (h : app.file_path = none ∨ build_character_set app = [] ∨
      app.ticket_length = 0 ∨ app.ticket_count = 0) :
    start_processing app = (app, StartAction.noop) := by
  cases happ : app.is_processing with
  | true => simp [start_processing, happ]
  | false =>
    cases hfp : app.file_path with
    | none => simp [start_processing, happ, hfp]
    | some fp =>
      rcases h with h | h | h | h
      · rw [hfp] at h; exact absurd h (by simp)
      · simp [start_processing, happ, hfp, h]
      · simp [start_processing, happ, hfp, h]
      · simp [start_processing, happ, hfp, h]

/-- C7 witness: a request with no destination chosen is refused without any
state change. -/
theorem c7_witness :
    start_processing ⟨true, false, false, false, [], 3, 4, none, false⟩ =
      (⟨true, false, false, false, [], 3, 4, none, false⟩,
        StartAction.noop) :=
  c7_invalid_request_silent_noop
    ⟨true, false, false, false, [], 3, 4, none, false⟩ (Or.inl rfl)

/-- C10: gen_token never returns Err over a non-empty alphabet: writing a
character into the string buffer cannot fail, so the branch mapping that
failure to the fixed message is unreachable and every terminating call
produces Ok. -/
theorem c10_gen_token_never_errors (cs : List Char) (hcs : cs ≠ [])
    (already : List (List Char)) (len : Nat) (stream : Nat → Nat)
    (pos fuel : Nat) (e : String) :
    build_buf cs stream pos len [] =
      Except.ok (draw cs stream pos len) ∧
    gen_token cs already len stream pos fuel ≠
      some (Except.error e) :=
  ⟨by simpa using build_buf_ok cs stream len pos [],
    gen_token_not_error cs already len stream fuel pos e⟩

/-- C10 witness: a concrete call neither fails in the buffer nor returns
the error result. -/
theorem c10_witness :
    build_buf ['a'] (fun _ => 0) 0 1 [] =
      Except.ok (draw ['a'] (fun _ => 0) 0 1) ∧
    gen_token ['a'] [] 1 (fun _ => 0) 0 1 ≠
      some (Except.error "Failed to write to string") :=
  c10_gen_token_never_errors ['a'] (by decide) [] 1 (fun _ => 0) 0 1
    "Failed to write to string"

/-- C6: gen_token retries the entire draw whenever the drawn string is in
the generated set, with no retry cap; it can terminate exactly when the set
does not hold every producible string of the target length; and when
alphabet_size raised to token_length is below token_count, a run whose file
operations all succeed never terminates. -/
theorem c6_unbounded_retry_and_termination (cs : List Char) (hcs : cs ≠ [])
    (already : List (List Char)) (len : Nat) :
    (∀ (stream : Nat → Nat) (pos fuel : Nat),
      draw cs stream pos len ∈ already →
      gen_token cs already len stream pos (fuel + 1) =
        gen_token cs already len stream (pos + len) fuel) ∧
    ((∃ (stream : Nat → Nat) (fuel p2 : Nat) (tok : List Char),
        gen_token cs already len stream 0 fuel =
          some (Except.ok (tok, p2))) ↔
      ∃ t, validTok cs len t ∧ t ∉ already) ∧
    ((∀ t, validTok cs len t → t ∈ already) →
      ∀ (stream : Nat → Nat) (pos fuel : Nat),
        gen_token cs already len stream pos fuel = none) ∧
    (∀ (fs : Fs) (fp : String) (stream : Nat → Nat) (count fuel : Nat),
      fs.createResult = none → (∀ i, fs.writeResult i = none) →
      cs.length ^ len < count →
      build_csv fs cs fp count len stream fuel = none) := by
  refine ⟨?_, ?_, ?_, ?_⟩
  · intro stream pos fuel hmem
    rw [gen_token_succ, if_pos hmem]
  · constructor
    · rintro ⟨stream, fuel, p2, tok, h⟩
      have hspec := gen_token_ok_spec cs already len stream fuel 0 tok p2 h
      exact ⟨tok, hspec.2 hcs, hspec.1⟩
    · rintro ⟨t, hv, hfresh⟩
      exact ⟨tokStream cs t, 1, len, t,
        gen_token_exists_of_fresh cs already len t hv hfresh⟩
  · intro hsat stream pos fuel
    exact gen_token_none_of_saturated cs hcs already len hsat stream fuel pos
  · intro fs fp stream count fuel hcr hw hcount
    simp only [build_csv, hcr]
    refine build_csv_loop_none_of_small_space fs cs hcs stream len fuel hw
      count 0 [] [] List.nodup_nil (by simp) ?_
    have hdle : cs.dedup.length ≤ cs.length :=
      (List.dedup_sublist cs).length_le
    have h2 : cs.dedup.length ^ len < count :=
      lt_of_le_of_lt (Nat.pow_le_pow_left hdle len) hcount
    simpa using h2

/-- C6 witness: over the one-character alphabet, once the set holds its only
length-one string a concrete call never terminates. -/
theorem c6_witness :
    gen_token ['a'] [['a']] 1 (fun _ => 0) 0 5 = none :=
  (c6_unbounded_retry_and_termination ['a'] (by decide) [['a']] 1).2.2.1
    (fun t ht => by
      obtain ⟨hlen, hmem⟩ := ht
      cases t with
      | nil => simp at hlen
      | cons c t2 =>
        cases t2 with
        | nil =>
          have hc : c ∈ (['a'] : List Char) := hmem c (by simp)
          simp only [List.mem_singleton] at hc
          simp [hc]
        | cons d t3 => simp at hlen)
    (fun _ => 0) 0 5

/-- C8: build_csv reports an error naming the underlying failure when the
file cannot be created or a record write fails; the first failing write
aborts the run at once, the rows already written stay as a partial file,
and no I/O operation is retried. -/
theorem c8_io_errors_propagate_and_abort (fs : Fs) (cs : List Char)
    (fp : String) (count len fuel : Nat) (stream : Nat → Nat) :
    (∀ err, fs.createResult = some err →
      build_csv fs cs fp count len stream fuel =
        some ([], Except.error
          ("Failed to create file " ++ fp ++ ": " ++ err))) ∧
    (∀ err p2 tok, fs.createResult = none → fs.writeResult 0 = some err →
      0 < count →
      gen_token cs [] len stream 0 fuel = some (Except.ok (tok, p2)) →
      build_csv fs cs fp count len stream fuel =
        some ([], Except.error ("Failed to write to file: " ++ err))) ∧
    (∀ rows e, fs.createResult = none →
      build_csv fs cs fp count len stream fuel =
        some (rows, Except.error e) →
      ∃ err, fs.writeResult rows.length = some err ∧
        e = "Failed to write to file: " ++ err ∧
        (∀ i, i < rows.length → fs.writeResult i = none) ∧
        rows.length < count) := by
  refine ⟨?_, ?_, ?_⟩
  · intro err hcr
    simp [build_csv, hcr]
  · intro err p2 tok hcr hw0 hcount hgen
    simp only [build_csv, hcr]
    cases count with
    | zero => omega
    | succ c2 =>
      simp only [build_csv_loop, hgen]
      simp [hw0]
  · intro rows e hcr h
    simp only [build_csv, hcr] at h
    have hspec := build_csv_loop_error_spec fs cs stream len fuel count 0
      [] [] rows e h
      (by intro i hi; exact absurd hi (by simp))
    simpa using hspec

/-- C8 witness: a run whose file creation fails reports the path and the
underlying text and writes no rows. -/
theorem c8_witness :
    build_csv ⟨some "denied", fun _ => none⟩ ['a'] "t.csv" 1 1 (fun _ => 0)
        1 =
      some ([], Except.error
        ("Failed to create file " ++ "t.csv" ++ ": " ++ "denied")) :=
  (c8_io_errors_propagate_and_abort ⟨some "denied", fun _ => none⟩ ['a']
      "t.csv" 1 1 1 (fun _ => 0)).1 "denied" rfl

/-- C9: whatever classes are selected and whatever the exclusion string, the
built alphabet never holds W or w (the class constants carry a second Q and
q in their place), so no generated token ever contains either letter. -/
theorem c9_no_w_in_alphabet_or_tokens (app : RandomizerApp) :
    ('W' ∉ build_character_set app ∧ 'w' ∉ build_character_set app) ∧
    (∀ (fs : Fs) (fp : String) (count len fuel : Nat)
        (stream : Nat → Nat) (rows : List (List Char))
        (st : Except String Unit) (t : List Char),
      build_character_set app ≠ [] →
      build_csv fs (build_character_set app) fp count len stream fuel =
        some (rows, st) →
      t ∈ rows → 'W' ∉ t ∧ 'w' ∉ t) := by
  have hW : 'W' ∉ build_character_set app := fun h =>
    absurd (build_character_set_subset app 'W' h) (by decide)
  have hws : 'w' ∉ build_character_set app := fun h =>
    absurd (build_character_set_subset app 'w' h) (by decide)
  refine ⟨⟨hW, hws⟩, ?_⟩
  intro fs fp count len fuel stream rows st t hne hcsv ht
  simp only [build_csv] at hcsv
  cases hcr : fs.createResult with
  | some err =>
    rw [hcr] at hcsv
    simp only [Option.some.injEq, Prod.mk.injEq] at hcsv
    rw [← hcsv.1] at ht
    simp at ht
  | none =>
    rw [hcr] at hcsv
    have hval := build_csv_loop_rows_valid fs (build_character_set app) hne
      stream len fuel count 0 [] [] rows st hcsv (by simp) t ht
    exact ⟨fun hmem => hW (hval.2 'W' hmem),
      fun hmem => hws (hval.2 'w' hmem)⟩

/-- C9 witness: a concrete capitals-only run emits a token free of both
letters. -/
theorem c9_witness :
    'W' ∉ (['A'] : List Char) ∧ 'w' ∉ (['A'] : List Char) :=
  (c9_no_w_in_alphabet_or_tokens
      ⟨true, false, false, false, [], 0, 0, none, false⟩).2 fsOk "f.csv" 1 1
    1 (fun _ => 0) [['A']] (Except.ok ()) ['A'] (by decide) rfl (by decide)

end TicketGen
